import Mathlib

/-!
Verification of the langgraph-app workflow graphs.

The repository wires two LangGraph workflows (src/agent/jsonSummarizer.ts and
src/tweetToImage/index.ts) plus an OpenAPI-to-tools helper
(src/agent/utils/openApiToTools.ts).  The graph engine itself
(StateGraph / Annotation.Root of the langgraph library) is not part of the
repository's sources, so its state-merge and run-loop semantics are modelled
from the specification (sections 4.1 and 4.5): per-field reducer merge with
fields absent from an update carried over unchanged, and a sequential run
loop driven by unconditional edges and router label maps.  All node bodies,
routers, state schemas (field set, defaults, reducers) and label maps are
translated directly from the TypeScript sources; external effects (LLM
calls, Handlebars rendering, image generation) are oracles supplied as an
environment, as the spec requires the engine to be agnostic to what a step
does internally.

JavaScript strings are modelled as Lean String (or List Char for the
character-level snake_case function), JavaScript numbers that are used as
counters or integer ratings as Nat / Int, nullable values as Option, and a
step's partial update as a structure of Option fields (absent = the field
is not part of the update).
-/

/-- A JSON value, the shape of the untyped `data` field of the
summarizeJson state (TypeScript type `any`, holding `JSON.parse` output). -/
inductive JsonValue where
  | null : JsonValue
  | bool (b : Bool) : JsonValue
  | num (n : Int) : JsonValue
  | str (s : String) : JsonValue
  | arr (xs : List JsonValue) : JsonValue
  | obj (fields : List (String × JsonValue)) : JsonValue

/-- The reducer declared for every field of the summarizeJson schema and for
the artStyle / shouldRemoveBranding fields of the tweetToImage schema:
source `reducer: (a, b) => b` (last write wins). -/
def lastWriteWins {α : Type} (a b : α) : α := b

/-- Modelled from the spec: per-field merge of one update field into the
current value.  If the update carries the field (`some v`), the field's
reducer is applied (every reducer in this repository is `lastWriteWins`);
absent fields keep the old value. -/
def mergeField {α : Type} (old : α) : Option α → α
  | none => old
  | some v => lastWriteWins old v

@[simp] theorem mergeField_none {α : Type} (old : α) : mergeField old none = old := rfl

@[simp] theorem mergeField_some {α : Type} (old : α) (v : α) :
    mergeField old (some v) = v := rfl

/-- The run-scoped state of the summarizeJson graph: one field per
Annotation.Root entry of SummarizeJsonStateAnnotation
(src/agent/jsonSummarizer.ts lines 93-126).  Fields typed
`string | null` in the source, and `summary` (assigned `null` by
generateSummaryNode on failure), are Option String. -/
structure SJState where
  json : String
  data : JsonValue
  context : Option String
  jsonSchema : Option String
  reducerTemplate : String
  errorMessage : Option String
  attempts : Nat
  summary : Option String

/-- A partial update returned by a summarizeJson node: any subset of the
schema fields. -/
structure SJUpdate where
  json : Option String := none
  data : Option JsonValue := none
  context : Option (Option String) := none
  jsonSchema : Option (Option String) := none
  reducerTemplate : Option String := none
  errorMessage : Option (Option String) := none
  attempts : Option Nat := none
  summary : Option (Option String) := none

/-- Modelled from the spec: applyUpdate(state, update) merges a step's
partial update into the state field by field, reducers applied to present
fields and absent fields carried over unchanged (spec section 4.1).  The
reducers are the source's: every summarizeJson field declares
`reducer: (a, b) => b`. -/
def applyUpdate (s : SJState) (u : SJUpdate) : SJState where
  json := mergeField s.json u.json
  data := mergeField s.data u.data
  context := mergeField s.context u.context
  jsonSchema := mergeField s.jsonSchema u.jsonSchema
  reducerTemplate := mergeField s.reducerTemplate u.reducerTemplate
  errorMessage := mergeField s.errorMessage u.errorMessage
  attempts := mergeField s.attempts u.attempts
  summary := mergeField s.summary u.summary

/-- The schema defaults of SummarizeJsonStateAnnotation: json and
reducerTemplate default to the empty string, data to null, context /
jsonSchema / errorMessage to null, attempts to 0, summary to the empty
string. -/
def sjInitialState : SJState where
  json := ""
  data := JsonValue.null
  context := none
  jsonSchema := none
  reducerTemplate := ""
  errorMessage := none
  attempts := 0
  summary := some ""

/-- Modelled from the spec: initializeState(schema, input) applies the
schema defaults and then merges the caller input through the same merge
function used at runtime (spec section 4.1). -/
def sjInitializeState (input : SJUpdate) : SJState :=
  applyUpdate sjInitialState input

/-- The attempt ceiling of the summarizeJson retry loop
(src/agent/jsonSummarizer.ts line 19). -/
def MAX_ATTEMPTS : Nat := 5

/-- External effects of the summarizeJson nodes, supplied as oracles:
`prep` stands for JSON.parse + toJsonSchema + the structured-output LLM
call of prepareReducerTemplateNode (returning reducerTemplate, data and
jsonSchema), `render` for Handlebars.compile followed by applying the
compiled template to the data (an exception from either is the
`Except.error` case). -/
structure SJEnv where
  prep : SJState → String × JsonValue × String
  render : String → JsonValue → Except String String

/-- The prepareReducerTemplate node (src/agent/jsonSummarizer.ts lines
128-203): aside from its LLM-produced fields it increments the `attempts`
counter by one; it never touches `errorMessage` or `summary`. -/
def prepareReducerTemplateNode (env : SJEnv) (s : SJState) : SJUpdate :=
  let out := env.prep s
  { reducerTemplate := some out.1
    data := some out.2.1
    jsonSchema := some (some out.2.2)
    attempts := some (s.attempts + 1) }

/-- The error text built by generateSummaryNode's catch branch (dedent of
"An error occurred while parsing the template: " followed by the thrown
error's message). -/
def mkTemplateErrorMessage (e : String) : String :=
  "An error occurred while parsing the template: " ++ e

/-- The generateSummary node (src/agent/jsonSummarizer.ts lines 205-238):
renders the current reducerTemplate against the current data; on success it
returns the summary and explicitly clears errorMessage (sets it to null),
on a caught exception it returns summary null and a non-null
errorMessage. -/
def generateSummaryNode (env : SJEnv) (s : SJState) : SJUpdate :=
  match env.render s.reducerTemplate s.data with
  | Except.ok summary => { summary := some (some summary), errorMessage := some none }
  | Except.error e =>
      { summary := some none
        errorMessage := some (some (mkTemplateErrorMessage e)) }

/-- The fixed summary produced when the attempt budget is exhausted. -/
def maxAttemptsSummary : String :=
  "Error summarizing the API response: Max attempts reached."

/-- The handleMaxAttemptsError node (src/agent/jsonSummarizer.ts lines
240-246). -/
def handleMaxAttemptsErrorNode (_s : SJState) : SJUpdate :=
  { summary := some (some maxAttemptsSummary) }

/-- JavaScript truthiness of a `string | null` value: null and the empty
string are falsy. -/
def truthyStr : Option String → Bool
  | none => false
  | some s => s ≠ ""

/-- The checkSummary router (src/agent/jsonSummarizer.ts lines 248-254):
RETRY while an error is set and attempts are below MAX_ATTEMPTS, ERROR when
an error is set and the budget is spent, SUCCESS when no error is set. -/
def checkSummary (s : SJState) : String :=
  if truthyStr s.errorMessage then
    if s.attempts < MAX_ATTEMPTS then "RETRY" else "ERROR"
  else "SUCCESS"

/-- The named nodes of the summarizeJson graph. -/
inductive SJNode where
  | prepareReducerTemplate : SJNode
  | generateSummary : SJNode
  | handleMaxAttemptsError : SJNode
deriving DecidableEq, Repr

/-- The label map of the conditional edge out of generateSummary
(src/agent/jsonSummarizer.ts lines 262-266); `none` is the END sentinel. -/
def sjCheckSummaryLabelMap : List (String × Option SJNode) :=
  [("SUCCESS", none),
   ("RETRY", some SJNode.prepareReducerTemplate),
   ("ERROR", some SJNode.handleMaxAttemptsError)]

/-- Modelled from the spec: resolving a router label through a label map;
a label that is not a key of the map is a ConfigurationError, fatal to the
run (spec section 4.3). -/
def labelLookup {ν : Type} (m : List (String × Option ν)) (label : String) :
    Except String (Option ν) :=
  match m.lookup label with
  | some target => Except.ok target
  | none => Except.error "ConfigurationError"

/-- Executes one node of the summarizeJson graph. -/
def sjExecNode (env : SJEnv) : SJNode → SJState → SJUpdate
  | SJNode.prepareReducerTemplate => prepareReducerTemplateNode env
  | SJNode.generateSummary => generateSummaryNode env
  | SJNode.handleMaxAttemptsError => handleMaxAttemptsErrorNode

/-- The successor relation of the summarizeJson graph, from its addEdge /
addConditionalEdges wiring (src/agent/jsonSummarizer.ts lines 256-267):
prepareReducerTemplate flows to generateSummary unconditionally,
generateSummary routes through checkSummary's label map, and
handleMaxAttemptsError has no outgoing edge, which ends the run (`Except.ok
none`). -/
def sjSuccessor (n : SJNode) (s : SJState) : Except String (Option SJNode) :=
  match n with
  | SJNode.prepareReducerTemplate => Except.ok (some SJNode.generateSummary)
  | SJNode.generateSummary => labelLookup sjCheckSummaryLabelMap (checkSummary s)
  | SJNode.handleMaxAttemptsError => Except.ok none

/-- Modelled from the spec: the executor run loop (spec section 4.5),
fuelled to make it a total function.  Executes the current node, merges its
update, picks the successor, and recurses; the result is the final state
together with the list of nodes visited, in order.  `none` means the fuel
ran out or a routing failure occurred. -/
def sjRun (env : SJEnv) : Nat → SJNode → SJState → Option (SJState × List SJNode)
  | 0, _, _ => none
  | fuel + 1, n, s =>
      let s' := applyUpdate s (sjExecNode env n s)
      match sjSuccessor n s' with
      | Except.error _ => none
      | Except.ok none => some (s', [n])
      | Except.ok (some n') =>
          match sjRun env fuel n' s' with
          | none => none
          | some (fin, tr) => some (fin, n :: tr)

/-- An image record as stored in the tweetToImage state's `images` field:
the source maps each generated image to `{ image, mimeType }`
(src/tweetToImage/index.ts lines 250-253). -/
structure TweetImage where
  image : String
  mimeType : String
deriving DecidableEq, Repr

/-- An image as returned by the generateImagen3Image helper
(src/tweetToImage/utils/generateImage.ts): `{ mimeType, imageBytes }`. -/
structure GeneratedImageData where
  mimeType : String
  imageBytes : String

/-- The run-scoped state of the tweetToImage graph, one field per
Annotation.Root entry of StateAnnotation (src/tweetToImage/index.ts lines
31-46).  Fields declared without a default (tweet, aspectRatio, prompt,
rating, ratingExplanation, images) may be unset, hence Option; artStyle
defaults to "NONE" and shouldRemoveBranding to true.  The rating is the
integer 1..10 scale of rateImageSuitability, modelled as Int. -/
structure TTState where
  tweet : Option String
  aspectRatio : Option String
  artStyle : String
  prompt : Option String
  rating : Option Int
  ratingExplanation : Option String
  images : Option (List TweetImage)
  shouldRemoveBranding : Bool

/-- A partial update returned by a tweetToImage node. -/
structure TTUpdate where
  tweet : Option String := none
  aspectRatio : Option String := none
  artStyle : Option String := none
  prompt : Option String := none
  rating : Option Int := none
  ratingExplanation : Option String := none
  images : Option (List TweetImage) := none
  shouldRemoveBranding : Option Bool := none

/-- Modelled from the spec: merge of one possibly-unset field, used for the
tweetToImage fields declared without a default (their merge policy is full
replacement, the incoming value winning whenever present in an update). -/
def mergeOptField {α : Type} : Option α → Option α → Option α
  | old, none => old
  | _, some v => some v

@[simp] theorem mergeOptField_none {α : Type} (old : Option α) :
    mergeOptField old none = old := rfl

@[simp] theorem mergeOptField_some {α : Type} (old : Option α) (v : α) :
    mergeOptField old (some v) = some v := rfl

/-- Modelled from the spec: applyUpdate for the tweetToImage state (spec
section 4.1); artStyle and shouldRemoveBranding use their declared
`(a, b) => b` reducers, the remaining fields use replacement. -/
def applyUpdateTT (s : TTState) (u : TTUpdate) : TTState where
  tweet := mergeOptField s.tweet u.tweet
  aspectRatio := mergeOptField s.aspectRatio u.aspectRatio
  artStyle := mergeField s.artStyle u.artStyle
  prompt := mergeOptField s.prompt u.prompt
  rating := mergeOptField s.rating u.rating
  ratingExplanation := mergeOptField s.ratingExplanation u.ratingExplanation
  images := mergeOptField s.images u.images
  shouldRemoveBranding := mergeField s.shouldRemoveBranding u.shouldRemoveBranding

/-- The schema defaults of the tweetToImage StateAnnotation: artStyle
"NONE", shouldRemoveBranding true, every other field unset. -/
def ttInitialState : TTState where
  tweet := none
  aspectRatio := none
  artStyle := "NONE"
  prompt := none
  rating := none
  ratingExplanation := none
  images := none
  shouldRemoveBranding := true

/-- Modelled from the spec: initializeState for the tweetToImage graph,
defaults first and then the caller input merged through the same merge
function. -/
def ttInitializeState (input : TTUpdate) : TTState :=
  applyUpdateTT ttInitialState input

/-- External effects of the tweetToImage nodes, supplied as oracles, one
per LLM or image-generation call: the tweet rewrite of removeBranding, the
prompt generation of generateImagePrompt (a function of the tweet and of
the negative-prompt block), the style enhancement of
applyArtStyleToImagePrompt, the structured rating of rateImageSuitability,
and generateImagen3Image (whose `Except.error` case is a rejected
promise). -/
structure TTEnv where
  removeBrandingLLM : Option String → String
  generateImagePromptLLM : Option String → String → String
  applyArtStyleLLM : String → Option String → String
  rateImageLLM : Option String → Int × String
  generateImagen3Image : Option String → Option String → Except String (List GeneratedImageData)

/-- The removeBranding node (src/tweetToImage/index.ts lines 79-86):
rewrites the tweet through the LLM and returns a tweet-only update. -/
def removeBrandingNode (env : TTEnv) (s : TTState) : TTUpdate :=
  { tweet := some (env.removeBrandingLLM s.tweet) }

/-- The negative-prompt block generateImagePrompt adds when branding is to
be removed (src/tweetToImage/index.ts lines 129-134). -/
def brandingNegativePrompt : String :=
  "# NEGATIVE PROMPT\n- Logo, Icon, Brand"

/-- The generateImagePrompt node (src/tweetToImage/index.ts lines 126-138):
formats the prompt template with the tweet and, when shouldRemoveBranding
is set, the negative-prompt block, then asks the LLM for an image prompt. -/
def generateImagePromptNode (env : TTEnv) (s : TTState) : TTUpdate :=
  { prompt := some (env.generateImagePromptLLM s.tweet
      (if s.shouldRemoveBranding then brandingNegativePrompt else "")) }

/-- The applyArtStyleToImagePrompt node (src/tweetToImage/index.ts lines
174-188): enhances the current prompt with the configured art style. -/
def applyArtStyleToImagePromptNode (env : TTEnv) (s : TTState) : TTUpdate :=
  { prompt := some (env.applyArtStyleLLM s.artStyle s.prompt) }

/-- The rateImageSuitability node (src/tweetToImage/index.ts lines
230-239): asks the structured-output LLM for a rating and an explanation
and returns both. -/
def rateImageSuitabilityNode (env : TTEnv) (s : TTState) : TTUpdate :=
  let out := env.rateImageLLM s.tweet
  { rating := some out.1, ratingExplanation := some out.2 }

/-- The aspect-ratio option passed to generateImagen3Image: the source
spreads `...(aspectRatio && { aspectRatio })`, so the option is present
exactly when the state's aspectRatio is a truthy (non-empty) string. -/
def aspectRatioConfig : Option String → Option String
  | none => none
  | some a => if a ≠ "" then some a else none

/-- The generateImageFromPrompt node (src/tweetToImage/index.ts lines
241-261).  The whole body is a try/catch: on success the generated images
are mapped to `{ image, mimeType }` records, on any failure of the
image-generation call the node catches and returns the benign update
`{ images: [] }`.  The Except result models the step's promise: an
`Except.error` would be a rejection the engine turns into a
StepExecutionError. -/
def generateImageFromPrompt (env : TTEnv) (s : TTState) :
    Except String TTUpdate :=
  match env.generateImagen3Image s.prompt (aspectRatioConfig s.aspectRatio) with
  | Except.ok images =>
      Except.ok { images := some (images.map fun i => ⟨i.imageBytes, i.mimeType⟩) }
  | Except.error _ => Except.ok { images := some [] }

/-- JavaScript truthiness of the `rating` number field: undefined and 0 are
falsy (NaN is not representable in this integer model). -/
def truthyNum : Option Int → Bool
  | none => false
  | some n => n ≠ 0

/-- JavaScript comparison `state.rating > 5`: false when rating is
undefined. -/
def ratingAboveFive : Option Int → Bool
  | none => false
  | some n => 5 < n

/-- The canGenerateImage router (src/tweetToImage/index.ts lines 263-264):
YES exactly when the rating is truthy and strictly greater than 5. -/
def canGenerateImage (s : TTState) : String :=
  if truthyNum s.rating && ratingAboveFive s.rating then "YES" else "NO"

/-- The shouldRemoveBranding router (src/tweetToImage/index.ts lines
266-267). -/
def shouldRemoveBranding (s : TTState) : String :=
  if s.shouldRemoveBranding then "YES" else "NO"

/-- The named nodes of the tweetToImage graph. -/
inductive TTNode where
  | checkShouldRemoveBranding : TTNode
  | removeBranding : TTNode
  | rateImageSuitability : TTNode
  | checkCanGenerateImage : TTNode
  | generateImagePrompt : TTNode
  | applyArtStyleToImagePrompt : TTNode
  | generateImageFromPrompt : TTNode
deriving DecidableEq, Repr

/-- The placeholder nodes `(state) => state` return the whole state object
as their update: every field present in the state is present in the
update. -/
def stateAsUpdate (s : TTState) : TTUpdate where
  tweet := s.tweet
  aspectRatio := s.aspectRatio
  artStyle := some s.artStyle
  prompt := s.prompt
  rating := s.rating
  ratingExplanation := s.ratingExplanation
  images := s.images
  shouldRemoveBranding := some s.shouldRemoveBranding

/-- The label map of the conditional edge out of checkShouldRemoveBranding
(src/tweetToImage/index.ts lines 279-282). -/
def ttShouldRemoveBrandingLabelMap : List (String × Option TTNode) :=
  [("YES", some TTNode.removeBranding),
   ("NO", some TTNode.rateImageSuitability)]

/-- The label map of the conditional edge out of checkCanGenerateImage
(src/tweetToImage/index.ts lines 285-288); `none` is the END sentinel. -/
def ttCanGenerateImageLabelMap : List (String × Option TTNode) :=
  [("YES", some TTNode.generateImagePrompt),
   ("NO", none)]

/-- Executes one node of the tweetToImage graph.  The asynchronous steps
whose oracles are total resolve to `Except.ok`; generateImageFromPrompt
carries its own Except result through. -/
def ttExecNode (env : TTEnv) : TTNode → TTState → Except String TTUpdate
  | TTNode.checkShouldRemoveBranding => fun s => Except.ok (stateAsUpdate s)
  | TTNode.removeBranding => fun s => Except.ok (removeBrandingNode env s)
  | TTNode.rateImageSuitability => fun s => Except.ok (rateImageSuitabilityNode env s)
  | TTNode.checkCanGenerateImage => fun s => Except.ok (stateAsUpdate s)
  | TTNode.generateImagePrompt => fun s => Except.ok (generateImagePromptNode env s)
  | TTNode.applyArtStyleToImagePrompt => fun s => Except.ok (applyArtStyleToImagePromptNode env s)
  | TTNode.generateImageFromPrompt => generateImageFromPrompt env

/-- The successor relation of the tweetToImage graph, from its addEdge /
addConditionalEdges wiring (src/tweetToImage/index.ts lines 270-292). -/
def ttSuccessor (n : TTNode) (s : TTState) : Except String (Option TTNode) :=
  match n with
  | TTNode.checkShouldRemoveBranding =>
      labelLookup ttShouldRemoveBrandingLabelMap (shouldRemoveBranding s)
  | TTNode.removeBranding => Except.ok (some TTNode.rateImageSuitability)
  | TTNode.rateImageSuitability => Except.ok (some TTNode.checkCanGenerateImage)
  | TTNode.checkCanGenerateImage =>
      labelLookup ttCanGenerateImageLabelMap (canGenerateImage s)
  | TTNode.generateImagePrompt => Except.ok (some TTNode.applyArtStyleToImagePrompt)
  | TTNode.applyArtStyleToImagePrompt => Except.ok (some TTNode.generateImageFromPrompt)
  | TTNode.generateImageFromPrompt => Except.ok none

/-- Modelled from the spec: the executor run loop for the tweetToImage
graph, fuelled; a rejected step or a routing failure aborts the run
(`none`, as does running out of fuel). -/
def ttRun (env : TTEnv) : Nat → TTNode → TTState → Option (TTState × List TTNode)
  | 0, _, _ => none
  | fuel + 1, n, s =>
      match ttExecNode env n s with
      | Except.error _ => none
      | Except.ok u =>
          let s' := applyUpdateTT s u
          match ttSuccessor n s' with
          | Except.error _ => none
          | Except.ok none => some (s', [n])
          | Except.ok (some n') =>
              match ttRun env fuel n' s' with
              | none => none
              | some (fin, tr) => some (fin, n :: tr)

/-- Replaces every maximal run of characters satisfying `p` with the single
character `r`: the effect of a global regex replace of `X+` (for a
character class `X`) with a one-character string. -/
def collapseRuns (p : Char → Bool) (r : Char) : List Char → List Char
  | [] => []
  | [c] => if p c then [r] else [c]
  | c :: d :: rest =>
      if p c then
        if p d then collapseRuns p r (d :: rest)
        else r :: collapseRuns p r (d :: rest)
      else c :: collapseRuns p r (d :: rest)

/-- The character class of the regex `[^a-zA-Z0-9]` complement: an ASCII
letter or digit. -/
def isAsciiAlnum (c : Char) : Bool := c.isAlpha || c.isDigit

/-- Removes one leading underscore: the anchored half `^_` of the regex
replace of `^_|_$` (the anchor matches at most once). -/
def dropLeadUnderscore (l : List Char) : List Char :=
  if l.head? = some '_' then l.tail else l

/-- Removes one trailing underscore: the anchored half `_$` of the regex
replace of `^_|_$` (the anchor matches at most once). -/
def dropTrailUnderscore (l : List Char) : List Char :=
  if l.getLast? = some '_' then l.dropLast else l

/-- Removes one leading and one trailing underscore: the global regex
replace of `^_|_$` with the empty string. -/
def dropEdgeUnderscores (l : List Char) : List Char :=
  dropTrailUnderscore (dropLeadUnderscore l)

/-- The normalizeToSnakeCase helper (src/agent/utils/openApiToTools.ts
lines 33-41), on the character list of the input string: lower-case,
replace runs of non-alphanumerics with an underscore, collapse underscore
runs, strip a leading and a trailing underscore, then truncate to 64
characters when longer. -/
def normalizeToSnakeCase (input : List Char) : List Char :=
  let normalized :=
    dropEdgeUnderscores
      (collapseRuns (fun c => c == '_') '_'
        (collapseRuns (fun c => !isAsciiAlnum c) '_'
          (input.map Char.toLower)))
  if normalized.length > 64 then normalized.take 64 else normalized

/-- The character class a normalized tool name may use: lower-case ASCII
letters, digits and the underscore. -/
def isLowerSnakeChar (c : Char) : Bool := c.isLower || c.isDigit || c == '_'

/-! ## Merge semantics of the summarizeJson schema (claims C4, C5) -/

theorem mergeField_eq_getD {α : Type} (old : α) (o : Option α) :
    mergeField old o = o.getD old := by
  cases o <;> rfl

/-- The value of a field after a whole sequence of last-write-wins updates:
the last value written, or the initial value when none was. -/
def overwriteFold {α : Type} (init : α) (us : List (Option α)) : α :=
  us.foldl (fun acc o => o.getD acc) init

@[simp] theorem overwriteFold_nil {α : Type} (init : α) : overwriteFold init [] = init := rfl

@[simp] theorem overwriteFold_cons {α : Type} (init : α) (o : Option α) (os : List (Option α)) :
    overwriteFold init (o :: os) = overwriteFold (o.getD init) os := rfl

theorem foldl_applyUpdate_proj {β : Type} (proj : SJState → β) (uproj : SJUpdate → Option β)
    (h : ∀ s u, proj (applyUpdate s u) = (uproj u).getD (proj s)) :
    ∀ (us : List SJUpdate) (s : SJState),
      proj (us.foldl applyUpdate s) = overwriteFold (proj s) (us.map uproj) := by
  intro us
  induction us with
  | nil => intro s; rfl
  | cons u us ih =>
      intro s
      rw [List.foldl_cons, List.map_cons, overwriteFold_cons, ih, h]

theorem applyUpdate_json (s : SJState) (u : SJUpdate) :
    (applyUpdate s u).json = u.json.getD s.json := mergeField_eq_getD _ _

theorem applyUpdate_data (s : SJState) (u : SJUpdate) :
    (applyUpdate s u).data = u.data.getD s.data := mergeField_eq_getD _ _

theorem applyUpdate_context (s : SJState) (u : SJUpdate) :
    (applyUpdate s u).context = u.context.getD s.context := mergeField_eq_getD _ _

theorem applyUpdate_jsonSchema (s : SJState) (u : SJUpdate) :
    (applyUpdate s u).jsonSchema = u.jsonSchema.getD s.jsonSchema := mergeField_eq_getD _ _

theorem applyUpdate_reducerTemplate (s : SJState) (u : SJUpdate) :
    (applyUpdate s u).reducerTemplate = u.reducerTemplate.getD s.reducerTemplate :=
  mergeField_eq_getD _ _

theorem applyUpdate_errorMessage (s : SJState) (u : SJUpdate) :
    (applyUpdate s u).errorMessage = u.errorMessage.getD s.errorMessage :=
  mergeField_eq_getD _ _

theorem applyUpdate_attempts (s : SJState) (u : SJUpdate) :
    (applyUpdate s u).attempts = u.attempts.getD s.attempts := mergeField_eq_getD _ _

theorem applyUpdate_summary (s : SJState) (u : SJUpdate) :
    (applyUpdate s u).summary = u.summary.getD s.summary := mergeField_eq_getD _ _

/-- C5: every field of the summarizeJson state schema declares the
last-write-wins reducer, so applying an update that contains a field
replaces that field with the update's value, and across any sequence of
updates a field's final value is the value of the last update containing
it, or the initial value when none does. -/
theorem summarizeJson_merge_lastWriteWins :
    (∀ (s : SJState) (u : SJUpdate) v, u.json = some v → (applyUpdate s u).json = v) ∧
    (∀ (s : SJState) (u : SJUpdate) v, u.data = some v → (applyUpdate s u).data = v) ∧
    (∀ (s : SJState) (u : SJUpdate) v, u.context = some v → (applyUpdate s u).context = v) ∧
    (∀ (s : SJState) (u : SJUpdate) v, u.jsonSchema = some v → (applyUpdate s u).jsonSchema = v) ∧
    (∀ (s : SJState) (u : SJUpdate) v,
        u.reducerTemplate = some v → (applyUpdate s u).reducerTemplate = v) ∧
    (∀ (s : SJState) (u : SJUpdate) v, u.errorMessage = some v → (applyUpdate s u).errorMessage = v) ∧
    (∀ (s : SJState) (u : SJUpdate) v, u.attempts = some v → (applyUpdate s u).attempts = v) ∧
    (∀ (s : SJState) (u : SJUpdate) v, u.summary = some v → (applyUpdate s u).summary = v) ∧
    (∀ (us : List SJUpdate) (s : SJState),
        (us.foldl applyUpdate s).json = overwriteFold s.json (us.map SJUpdate.json) ∧
        (us.foldl applyUpdate s).data = overwriteFold s.data (us.map SJUpdate.data) ∧
        (us.foldl applyUpdate s).context = overwriteFold s.context (us.map SJUpdate.context) ∧
        (us.foldl applyUpdate s).jsonSchema =
          overwriteFold s.jsonSchema (us.map SJUpdate.jsonSchema) ∧
        (us.foldl applyUpdate s).reducerTemplate =
          overwriteFold s.reducerTemplate (us.map SJUpdate.reducerTemplate) ∧
        (us.foldl applyUpdate s).errorMessage =
          overwriteFold s.errorMessage (us.map SJUpdate.errorMessage) ∧
        (us.foldl applyUpdate s).attempts = overwriteFold s.attempts (us.map SJUpdate.attempts) ∧
        (us.foldl applyUpdate s).summary = overwriteFold s.summary (us.map SJUpdate.summary)) := by
  refine ⟨?_, ?_, ?_, ?_, ?_, ?_, ?_, ?_, ?_⟩
  · intro s u v hv; rw [applyUpdate_json, hv]; rfl
  · intro s u v hv; rw [applyUpdate_data, hv]; rfl
  · intro s u v hv; rw [applyUpdate_context, hv]; rfl
  · intro s u v hv; rw [applyUpdate_jsonSchema, hv]; rfl
  · intro s u v hv; rw [applyUpdate_reducerTemplate, hv]; rfl
  · intro s u v hv; rw [applyUpdate_errorMessage, hv]; rfl
  · intro s u v hv; rw [applyUpdate_attempts, hv]; rfl
  · intro s u v hv; rw [applyUpdate_summary, hv]; rfl
  · intro us s
    exact ⟨foldl_applyUpdate_proj _ _ applyUpdate_json us s,
           foldl_applyUpdate_proj _ _ applyUpdate_data us s,
           foldl_applyUpdate_proj _ _ applyUpdate_context us s,
           foldl_applyUpdate_proj _ _ applyUpdate_jsonSchema us s,
           foldl_applyUpdate_proj _ _ applyUpdate_reducerTemplate us s,
           foldl_applyUpdate_proj _ _ applyUpdate_errorMessage us s,
           foldl_applyUpdate_proj _ _ applyUpdate_attempts us s,
           foldl_applyUpdate_proj _ _ applyUpdate_summary us s⟩

/-- C5 witness: the merge contract evaluated at concrete inputs. -/
theorem summarizeJson_merge_lastWriteWins_at_concrete :
    (applyUpdate sjInitialState { json := some "x" }).json = "x" ∧
    (([{ json := some "a" }, { attempts := some 3 }, { json := some "b" }] :
        List SJUpdate).foldl applyUpdate sjInitialState).json =
      overwriteFold sjInitialState.json
        (([{ json := some "a" }, { attempts := some 3 }, { json := some "b" }] :
            List SJUpdate).map SJUpdate.json) :=
  ⟨summarizeJson_merge_lastWriteWins.1 sjInitialState { json := some "x" } "x" rfl,
   (summarizeJson_merge_lastWriteWins.2.2.2.2.2.2.2.2 _ sjInitialState).1⟩

/-! ## Partial-update isolation in the tweetToImage schema (claim C4) -/

theorem mergeOptField_self {α : Type} (t : Option α) : mergeOptField t t = t := by
  cases t <;> rfl

/-- C4: merging a step's partial update leaves every field absent from the
update unchanged.  For a state with tweet "A" and an empty images list, the
images-only update a step such as generateImageFromPrompt returns sets
images and leaves tweet — and every other field — untouched. -/
theorem tweetToImage_partial_update_isolation (s : TTState) (x : TweetImage)
    (ht : s.tweet = some "A") (hi : s.images = some []) :
    (applyUpdateTT s { images := some [x] }).images = some [x] ∧
    (applyUpdateTT s { images := some [x] }).tweet = some "A" ∧
    (applyUpdateTT s { images := some [x] }).aspectRatio = s.aspectRatio ∧
    (applyUpdateTT s { images := some [x] }).artStyle = s.artStyle ∧
    (applyUpdateTT s { images := some [x] }).prompt = s.prompt ∧
    (applyUpdateTT s { images := some [x] }).rating = s.rating ∧
    (applyUpdateTT s { images := some [x] }).ratingExplanation = s.ratingExplanation ∧
    (applyUpdateTT s { images := some [x] }).shouldRemoveBranding = s.shouldRemoveBranding := by
  have _ := hi
  refine ⟨?_, ?_, ?_, ?_, ?_, ?_, ?_, ?_⟩ <;>
    simp [applyUpdateTT, ht]

/-- C4 witness: the isolation property at a concrete state and image. -/
theorem tweetToImage_partial_update_isolation_at_concrete :
    (applyUpdateTT
        { tweet := some "A", aspectRatio := none, artStyle := "NONE", prompt := none,
          rating := none, ratingExplanation := none, images := some [],
          shouldRemoveBranding := true }
        { images := some [⟨"bytes", "image/png"⟩] }).images = some [⟨"bytes", "image/png"⟩] ∧
    (applyUpdateTT
        { tweet := some "A", aspectRatio := none, artStyle := "NONE", prompt := none,
          rating := none, ratingExplanation := none, images := some [],
          shouldRemoveBranding := true }
        { images := some [⟨"bytes", "image/png"⟩] }).tweet = some "A" :=
  ⟨(tweetToImage_partial_update_isolation _ ⟨"bytes", "image/png"⟩ rfl rfl).1,
   (tweetToImage_partial_update_isolation _ ⟨"bytes", "image/png"⟩ rfl rfl).2.1⟩

/-! ## The generateSummary error contract (claim C6) -/

theorem mkTemplateErrorMessage_ne_empty (e : String) : mkTemplateErrorMessage e ≠ "" := by
  intro h
  have hlen : (mkTemplateErrorMessage e).length = 0 := by rw [h]; rfl
  rw [mkTemplateErrorMessage, String.length_append] at hlen
  have : ("An error occurred while parsing the template: " : String).length = 46 := rfl
  omega

/-- C6: the update returned by the generateSummary step always carries the
errorMessage field; errorMessage is null exactly when rendering the
reducerTemplate against the data succeeded, in which case summary is the
rendered output; on a caught failure errorMessage is a non-null (and
non-empty, hence truthy) string.  A later successful pass therefore clears
a prior error explicitly rather than relying on the engine. -/
theorem generateSummary_errorMessage_contract (env : SJEnv) (s : SJState) :
    (generateSummaryNode env s).errorMessage ≠ none ∧
    ((generateSummaryNode env s).errorMessage = some none ↔
      ∃ out, env.render s.reducerTemplate s.data = Except.ok out) ∧
    (∀ out, env.render s.reducerTemplate s.data = Except.ok out →
      (generateSummaryNode env s).summary = some (some out)) ∧
    (∀ e, env.render s.reducerTemplate s.data = Except.error e →
      ∃ m, (generateSummaryNode env s).errorMessage = some (some m) ∧ m ≠ "") := by
  cases hr : env.render s.reducerTemplate s.data with
  | ok out =>
      refine ⟨by simp [generateSummaryNode, hr], ?_, ?_, ?_⟩
      · simp [generateSummaryNode, hr]
      · intro o ho
        cases ho
        simp [generateSummaryNode, hr]
      · intro e he; cases he
  | error e =>
      refine ⟨by simp [generateSummaryNode, hr], ?_, ?_, ?_⟩
      · simp [generateSummaryNode, hr]
      · intro o ho; cases ho
      · intro e' he'
        cases he'
        exact ⟨mkTemplateErrorMessage e, by simp [generateSummaryNode, hr],
               mkTemplateErrorMessage_ne_empty e⟩

/-! ## generateImageFromPrompt never rejects (claim C7) -/

/-- C7: the generateImageFromPrompt step always resolves: whatever the
image-generation call does, the step returns an ordinary partial update —
the mapped image list on success, the benign empty list when the call
failed — so the engine's StepExecutionError path is unreachable for this
step. -/
theorem generateImageFromPrompt_never_rejects (env : TTEnv) (s : TTState) :
    ∃ u, generateImageFromPrompt env s = Except.ok u ∧
      (∀ e, env.generateImagen3Image s.prompt (aspectRatioConfig s.aspectRatio) =
          Except.error e → u.images = some []) ∧
      (∀ imgs, env.generateImagen3Image s.prompt (aspectRatioConfig s.aspectRatio) =
          Except.ok imgs →
        u.images = some (imgs.map fun i => ⟨i.imageBytes, i.mimeType⟩)) ∧
      u.tweet = none ∧ u.aspectRatio = none ∧ u.artStyle = none ∧ u.prompt = none ∧
      u.rating = none ∧ u.ratingExplanation = none ∧ u.shouldRemoveBranding = none := by
  cases hr : env.generateImagen3Image s.prompt (aspectRatioConfig s.aspectRatio) with
  | ok imgs =>
      refine ⟨{ images := some (imgs.map fun i => ⟨i.imageBytes, i.mimeType⟩) }, ?_, ?_, ?_,
        rfl, rfl, rfl, rfl, rfl, rfl, rfl⟩
      · simp [generateImageFromPrompt, hr]
      · intro e he; cases he
      · intro imgs' h'; cases h'; rfl
  | error e =>
      refine ⟨{ images := some [] }, ?_, ?_, ?_, rfl, rfl, rfl, rfl, rfl, rfl, rfl⟩
      · simp [generateImageFromPrompt, hr]
      · intro e' _; rfl
      · intro imgs' h'; cases h'

/-- C6 witness: the contract evaluated at a concrete environment whose
rendering always fails, and a concrete state. -/
theorem generateSummary_errorMessage_contract_at_concrete :
    (generateSummaryNode
        { prep := fun _ => ("t", JsonValue.null, "sch"),
          render := fun _ _ => Except.error "bad token" } sjInitialState).errorMessage ≠ none ∧
    ((generateSummaryNode
        { prep := fun _ => ("t", JsonValue.null, "sch"),
          render := fun _ _ => Except.error "bad token" } sjInitialState).errorMessage = some none ↔
      ∃ out, (({ prep := fun _ => ("t", JsonValue.null, "sch"),
                 render := fun _ _ => Except.error "bad token" } : SJEnv)).render
          sjInitialState.reducerTemplate sjInitialState.data = Except.ok out) ∧
    (∀ out, (({ prep := fun _ => ("t", JsonValue.null, "sch"),
                render := fun _ _ => Except.error "bad token" } : SJEnv)).render
          sjInitialState.reducerTemplate sjInitialState.data = Except.ok out →
      (generateSummaryNode
        { prep := fun _ => ("t", JsonValue.null, "sch"),
          render := fun _ _ => Except.error "bad token" } sjInitialState).summary =
        some (some out)) ∧
    (∀ e, (({ prep := fun _ => ("t", JsonValue.null, "sch"),
              render := fun _ _ => Except.error "bad token" } : SJEnv)).render
          sjInitialState.reducerTemplate sjInitialState.data = Except.error e →
      ∃ m, (generateSummaryNode
        { prep := fun _ => ("t", JsonValue.null, "sch"),
          render := fun _ _ => Except.error "bad token" } sjInitialState).errorMessage =
          some (some m) ∧ m ≠ "") :=
  generateSummary_errorMessage_contract
    { prep := fun _ => ("t", JsonValue.null, "sch"),
      render := fun _ _ => Except.error "bad token" } sjInitialState

/-- C7 witness: the no-rejection property evaluated at a concrete
environment whose image call rejects, and a concrete state. -/
theorem generateImageFromPrompt_never_rejects_at_concrete :
    ∃ u, generateImageFromPrompt
        { removeBrandingLLM := fun _ => "t", generateImagePromptLLM := fun _ _ => "p",
          applyArtStyleLLM := fun _ _ => "p", rateImageLLM := fun _ => (7, "why"),
          generateImagen3Image := fun _ _ => Except.error "quota" } ttInitialState =
      Except.ok u ∧
      (∀ e, (({ removeBrandingLLM := fun _ => "t", generateImagePromptLLM := fun _ _ => "p",
                applyArtStyleLLM := fun _ _ => "p", rateImageLLM := fun _ => (7, "why"),
                generateImagen3Image := fun _ _ => Except.error "quota" } : TTEnv)
            ).generateImagen3Image ttInitialState.prompt
            (aspectRatioConfig ttInitialState.aspectRatio) = Except.error e →
        u.images = some []) ∧
      (∀ imgs, (({ removeBrandingLLM := fun _ => "t", generateImagePromptLLM := fun _ _ => "p",
                   applyArtStyleLLM := fun _ _ => "p", rateImageLLM := fun _ => (7, "why"),
                   generateImagen3Image := fun _ _ => Except.error "quota" } : TTEnv)
            ).generateImagen3Image ttInitialState.prompt
            (aspectRatioConfig ttInitialState.aspectRatio) = Except.ok imgs →
        u.images = some (imgs.map fun i => ⟨i.imageBytes, i.mimeType⟩)) ∧
      u.tweet = none ∧ u.aspectRatio = none ∧ u.artStyle = none ∧ u.prompt = none ∧
      u.rating = none ∧ u.ratingExplanation = none ∧ u.shouldRemoveBranding = none :=
  generateImageFromPrompt_never_rejects
    { removeBrandingLLM := fun _ => "t", generateImagePromptLLM := fun _ _ => "p",
      applyArtStyleLLM := fun _ _ => "p", rateImageLLM := fun _ => (7, "why"),
      generateImagen3Image := fun _ _ => Except.error "quota" } ttInitialState

/-! ## Router labels are always mapped (claim C3) -/

/-- C3: each router's label is always a key of its label map — checkSummary
produces only RETRY, ERROR or SUCCESS, and the shouldRemoveBranding and
canGenerateImage routers produce only YES or NO — so resolving the label
always succeeds and the ConfigurationError branch of the engine is
unreachable in every run of either graph. -/
theorem routers_always_mapped :
    (∀ s : SJState, checkSummary s ∈ ["RETRY", "ERROR", "SUCCESS"] ∧
      ∃ t, labelLookup sjCheckSummaryLabelMap (checkSummary s) = Except.ok t) ∧
    (∀ s : TTState, shouldRemoveBranding s ∈ ["YES", "NO"] ∧
      ∃ t, labelLookup ttShouldRemoveBrandingLabelMap (shouldRemoveBranding s) = Except.ok t) ∧
    (∀ s : TTState, canGenerateImage s ∈ ["YES", "NO"] ∧
      ∃ t, labelLookup ttCanGenerateImageLabelMap (canGenerateImage s) = Except.ok t) := by
  refine ⟨?_, ?_, ?_⟩
  · intro s
    by_cases h1 : truthyStr s.errorMessage
    · by_cases h2 : s.attempts < MAX_ATTEMPTS
      · have hcs : checkSummary s = "RETRY" := by simp [checkSummary, h1, h2]
        rw [hcs]
        exact ⟨by simp, some SJNode.prepareReducerTemplate, rfl⟩
      · have hcs : checkSummary s = "ERROR" := by simp [checkSummary, h1, h2]
        rw [hcs]
        exact ⟨by simp, some SJNode.handleMaxAttemptsError, rfl⟩
    · have hcs : checkSummary s = "SUCCESS" := by simp [checkSummary, h1]
      rw [hcs]
      exact ⟨by simp, none, rfl⟩
  · intro s
    by_cases hb : s.shouldRemoveBranding
    · have hr : shouldRemoveBranding s = "YES" := by simp [shouldRemoveBranding, hb]
      rw [hr]
      exact ⟨by simp, some TTNode.removeBranding, rfl⟩
    · have hr : shouldRemoveBranding s = "NO" := by simp [shouldRemoveBranding, hb]
      rw [hr]
      exact ⟨by simp, some TTNode.rateImageSuitability, rfl⟩
  · intro s
    by_cases hb : (truthyNum s.rating && ratingAboveFive s.rating) = true
    · have hr : canGenerateImage s = "YES" := by simp [canGenerateImage, hb]
      rw [hr]
      exact ⟨by simp, some TTNode.generateImagePrompt, rfl⟩
    · have hr : canGenerateImage s = "NO" := by
        simp only [canGenerateImage, hb]
        simp [Bool.not_eq_true] at hb
        simp [hb]
      rw [hr]
      exact ⟨by simp, none, rfl⟩

/-! ## The bounded retry loop of summarizeJson (claims C1, C2) -/

theorem sjRun_succ (env : SJEnv) (fuel : Nat) (n : SJNode) (s : SJState) :
    sjRun env (fuel + 1) n s =
      match sjSuccessor n (applyUpdate s (sjExecNode env n s)) with
      | Except.error _ => none
      | Except.ok none => some (applyUpdate s (sjExecNode env n s), [n])
      | Except.ok (some n') =>
          match sjRun env fuel n' (applyUpdate s (sjExecNode env n s)) with
          | none => none
          | some (fin, tr) => some (fin, n :: tr) := rfl

theorem sjRun_mono (env : SJEnv) :
    ∀ {fuel fuel' : Nat} {n : SJNode} {s : SJState} {r : SJState × List SJNode},
      sjRun env fuel n s = some r → fuel ≤ fuel' → sjRun env fuel' n s = some r := by
  intro fuel
  induction fuel with
  | zero => intro fuel' n s r h; simp [sjRun] at h
  | succ f ih =>
      intro fuel' n s r h hle
      obtain ⟨f', rfl⟩ : ∃ f', fuel' = f' + 1 := ⟨fuel' - 1, by omega⟩
      rw [sjRun_succ] at h ⊢
      cases hsucc : sjSuccessor n (applyUpdate s (sjExecNode env n s)) with
      | error e => rw [hsucc] at h; exact absurd h (by simp)
      | ok target =>
          rw [hsucc] at h
          cases target with
          | none => exact h
          | some n' =>
              have h' : (match sjRun env f n' (applyUpdate s (sjExecNode env n s)) with
                  | none => none
                  | some (fin, tr) => some (fin, n :: tr)) = some r := h
              show (match sjRun env f' n' (applyUpdate s (sjExecNode env n s)) with
                  | none => none
                  | some (fin, tr) => some (fin, n :: tr)) = some r
              cases hrec : sjRun env f n' (applyUpdate s (sjExecNode env n s)) with
              | none => rw [hrec] at h'; exact absurd h' (by simp)
              | some r' =>
                  rw [hrec] at h'
                  rw [ih hrec (by omega)]
                  exact h'

/-- The exact node sequence of the always-failing retry loop with j
attempts left: j repetitions of prepareReducerTemplate and generateSummary,
then handleMaxAttemptsError. -/
def retryTrace : Nat → List SJNode
  | 0 => [SJNode.handleMaxAttemptsError]
  | j + 1 => SJNode.prepareReducerTemplate :: SJNode.generateSummary :: retryTrace j

theorem sjRun_step_prepare (env : SJEnv) (fuel : Nat) (s : SJState) :
    sjRun env (fuel + 1) SJNode.prepareReducerTemplate s =
      match sjRun env fuel SJNode.generateSummary
          (applyUpdate s (prepareReducerTemplateNode env s)) with
      | none => none
      | some (fin, tr) => some (fin, SJNode.prepareReducerTemplate :: tr) := rfl

theorem sjRun_step_generate (env : SJEnv) (fuel : Nat) (s : SJState) {next : SJNode}
    (hnext : sjSuccessor SJNode.generateSummary
        (applyUpdate s (generateSummaryNode env s)) = Except.ok (some next)) :
    sjRun env (fuel + 1) SJNode.generateSummary s =
      match sjRun env fuel next (applyUpdate s (generateSummaryNode env s)) with
      | none => none
      | some (fin, tr) => some (fin, SJNode.generateSummary :: tr) := by
  rw [sjRun_succ]
  show (match sjSuccessor SJNode.generateSummary
      (applyUpdate s (generateSummaryNode env s)) with
    | Except.error _ => none
    | Except.ok none =>
        some (applyUpdate s (generateSummaryNode env s), [SJNode.generateSummary])
    | Except.ok (some n') =>
        match sjRun env fuel n' (applyUpdate s (generateSummaryNode env s)) with
        | none => none
        | some (fin, tr) => some (fin, SJNode.generateSummary :: tr)) = _
  rw [hnext]

theorem sjRun_step_handle (env : SJEnv) (fuel : Nat) (s : SJState) :
    sjRun env (fuel + 1) SJNode.handleMaxAttemptsError s =
      some (applyUpdate s (handleMaxAttemptsErrorNode s), [SJNode.handleMaxAttemptsError]) := rfl

theorem prep_apply_attempts (env : SJEnv) (s : SJState) :
    (applyUpdate s (prepareReducerTemplateNode env s)).attempts = s.attempts + 1 := rfl

theorem prep_apply_errorMessage (env : SJEnv) (s : SJState) :
    (applyUpdate s (prepareReducerTemplateNode env s)).errorMessage = s.errorMessage := rfl

theorem genSummary_apply_error {env : SJEnv} {s : SJState} {e : String}
    (he : env.render s.reducerTemplate s.data = Except.error e) :
    (applyUpdate s (generateSummaryNode env s)).errorMessage =
        some (mkTemplateErrorMessage e) ∧
    (applyUpdate s (generateSummaryNode env s)).attempts = s.attempts := by
  constructor <;> (simp only [generateSummaryNode, he]; rfl)

theorem checkSummary_failed {s : SJState} {e : String}
    (herr : s.errorMessage = some (mkTemplateErrorMessage e)) :
    checkSummary s = if s.attempts < MAX_ATTEMPTS then "RETRY" else "ERROR" := by
  have ht : truthyStr s.errorMessage = true := by
    rw [herr]
    simp [truthyStr, mkTemplateErrorMessage_ne_empty e]
  simp [checkSummary, ht]

theorem sjRun_alwaysFail_trace (env : SJEnv)
    (hfail : ∀ t d, ∃ e, env.render t d = Except.error e) :
    ∀ (j : Nat) (s : SJState), 1 ≤ j → s.attempts + j = MAX_ATTEMPTS →
      ∃ fin, sjRun env (2 * j + 1) SJNode.prepareReducerTemplate s =
        some (fin, retryTrace j) := by
  intro j
  induction j with
  | zero => intro s h1 _; exact absurd h1 (by omega)
  | succ j ih =>
      intro s _ hs
      have hfuel : 2 * (j + 1) + 1 = ((2 * j + 1) + 1) + 1 := by ring
      rw [hfuel, sjRun_step_prepare]
      set s1 := applyUpdate s (prepareReducerTemplateNode env s) with hs1
      have h1att : s1.attempts = s.attempts + 1 := prep_apply_attempts env s
      obtain ⟨e, he⟩ := hfail s1.reducerTemplate s1.data
      have h2 := genSummary_apply_error he
      set s2 := applyUpdate s1 (generateSummaryNode env s1) with hs2
      have h2err : s2.errorMessage = some (mkTemplateErrorMessage e) := h2.1
      have h2att : s2.attempts = s.attempts + 1 := by rw [h2.2, h1att]
      by_cases hj : j = 0
      · -- last pass: the counter reaches the ceiling, label ERROR
        subst hj
        have hcs : checkSummary s2 = "ERROR" := by
          rw [checkSummary_failed h2err, if_neg (by omega)]
        have hnext : sjSuccessor SJNode.generateSummary s2 =
            Except.ok (some SJNode.handleMaxAttemptsError) := by
          show labelLookup sjCheckSummaryLabelMap (checkSummary s2) = _
          rw [hcs]
          rfl
        rw [sjRun_step_generate env (2 * 0 + 1) s1 hnext]
        rw [show (2 * 0 + 1 : Nat) = 0 + 1 from rfl, sjRun_step_handle]
        exact ⟨_, rfl⟩
      · -- the counter is still below the ceiling, label RETRY, loop back
        have hcs : checkSummary s2 = "RETRY" := by
          rw [checkSummary_failed h2err, if_pos (by omega)]
        have hnext : sjSuccessor SJNode.generateSummary s2 =
            Except.ok (some SJNode.prepareReducerTemplate) := by
          show labelLookup sjCheckSummaryLabelMap (checkSummary s2) = _
          rw [hcs]
          rfl
        rw [sjRun_step_generate env (2 * j + 1) s1 hnext]
        obtain ⟨fin, hrec⟩ := ih s2 (by omega) (by omega)
        refine ⟨fin, ?_⟩
        rw [hrec]
        rfl

/-- C1: when every rendering attempt fails (the environment's render always
throws, so errorMessage is set after every generateSummary execution), a
run started with the default attempts counter visits
prepareReducerTemplate exactly MAX_ATTEMPTS = 5 times — its trace is
exactly five prepare/generate rounds followed by handleMaxAttemptsError —
and never a sixth time, for every sufficient fuel bound. -/
theorem summarizeJson_alwaysFail_five_attempts (env : SJEnv) (s₀ : SJState) (fuel : Nat)
    (hfail : ∀ t d, ∃ e, env.render t d = Except.error e)
    (h0 : s₀.attempts = 0) (hfuel : 2 * MAX_ATTEMPTS + 1 ≤ fuel) :
    ∃ fin, sjRun env fuel SJNode.prepareReducerTemplate s₀ =
        some (fin, retryTrace MAX_ATTEMPTS) ∧
      (retryTrace MAX_ATTEMPTS).count SJNode.prepareReducerTemplate = MAX_ATTEMPTS ∧
      (retryTrace MAX_ATTEMPTS).getLast? = some SJNode.handleMaxAttemptsError := by
  obtain ⟨fin, hr⟩ :=
    sjRun_alwaysFail_trace env hfail MAX_ATTEMPTS s₀ (by decide) (by omega)
  exact ⟨fin, sjRun_mono env hr hfuel, by decide, by decide⟩

/-- C1 witness: the five-attempt trace with a concrete always-failing
environment, the default initial state and fuel 11. -/
theorem summarizeJson_alwaysFail_five_attempts_at_concrete :
    ∃ fin, sjRun
        { prep := fun _ => ("t", JsonValue.null, "sch"),
          render := fun _ _ => Except.error "boom" } 11
        SJNode.prepareReducerTemplate sjInitialState =
        some (fin, retryTrace MAX_ATTEMPTS) ∧
      (retryTrace MAX_ATTEMPTS).count SJNode.prepareReducerTemplate = MAX_ATTEMPTS ∧
      (retryTrace MAX_ATTEMPTS).getLast? = some SJNode.handleMaxAttemptsError :=
  summarizeJson_alwaysFail_five_attempts
    { prep := fun _ => ("t", JsonValue.null, "sch"),
      render := fun _ _ => Except.error "boom" } sjInitialState 11
    (fun t d => ⟨"boom", rfl⟩) rfl (by decide)

/-- C2: with the attempts counter defaulting to 0, incremented once per
pass of prepareReducerTemplate, and the checkSummary router comparing it to
the ceiling MAX_ATTEMPTS, every run that never satisfies the SUCCESS label
(rendering always fails) terminates, within MAX_ATTEMPTS + 1 passes through
the incrementing step. -/
theorem summarizeJson_neverSuccess_terminates (env : SJEnv) (s₀ : SJState) (fuel : Nat)
    (hfail : ∀ t d, ∃ e, env.render t d = Except.error e)
    (h0 : s₀.attempts = 0) (hfuel : 2 * MAX_ATTEMPTS + 1 ≤ fuel) :
    ∃ fin tr, sjRun env fuel SJNode.prepareReducerTemplate s₀ = some (fin, tr) ∧
      tr.count SJNode.prepareReducerTemplate ≤ MAX_ATTEMPTS + 1 := by
  obtain ⟨fin, hr⟩ :=
    sjRun_alwaysFail_trace env hfail MAX_ATTEMPTS s₀ (by decide) (by omega)
  exact ⟨fin, retryTrace MAX_ATTEMPTS, sjRun_mono env hr hfuel, by decide⟩

/-- C2 witness: termination of the never-successful run with a concrete
environment, a concrete initialized input and fuel 12. -/
theorem summarizeJson_neverSuccess_terminates_at_concrete :
    ∃ fin tr, sjRun
        { prep := fun _ => ("u", JsonValue.null, "sch2"),
          render := fun _ _ => Except.error "parse error" } 12
        SJNode.prepareReducerTemplate (sjInitializeState { json := some "[1]" }) =
        some (fin, tr) ∧
      tr.count SJNode.prepareReducerTemplate ≤ MAX_ATTEMPTS + 1 :=
  summarizeJson_neverSuccess_terminates
    { prep := fun _ => ("u", JsonValue.null, "sch2"),
      render := fun _ _ => Except.error "parse error" }
    (sjInitializeState { json := some "[1]" }) 12
    (fun t d => ⟨"parse error", rfl⟩) rfl (by decide)

/-! ## Routing through the tweetToImage graph (claims C8, C9) -/

theorem ttRun_succ (env : TTEnv) (fuel : Nat) (n : TTNode) (s : TTState) :
    ttRun env (fuel + 1) n s =
      match ttExecNode env n s with
      | Except.error _ => none
      | Except.ok u =>
          match ttSuccessor n (applyUpdateTT s u) with
          | Except.error _ => none
          | Except.ok none => some (applyUpdateTT s u, [n])
          | Except.ok (some n') =>
              match ttRun env fuel n' (applyUpdateTT s u) with
              | none => none
              | some (fin, tr) => some (fin, n :: tr) := rfl

theorem ttRun_mono (env : TTEnv) :
    ∀ {fuel fuel' : Nat} {n : TTNode} {s : TTState} {r : TTState × List TTNode},
      ttRun env fuel n s = some r → fuel ≤ fuel' → ttRun env fuel' n s = some r := by
  intro fuel
  induction fuel with
  | zero => intro fuel' n s r h; simp [ttRun] at h
  | succ f ih =>
      intro fuel' n s r h hle
      obtain ⟨f', rfl⟩ : ∃ f', fuel' = f' + 1 := ⟨fuel' - 1, by omega⟩
      rw [ttRun_succ] at h ⊢
      cases hex : ttExecNode env n s with
      | error e => rw [hex] at h; exact absurd h (by simp)
      | ok u =>
          rw [hex] at h
          have h2 : (match ttSuccessor n (applyUpdateTT s u) with
              | Except.error _ => none
              | Except.ok none => some (applyUpdateTT s u, [n])
              | Except.ok (some n') =>
                  match ttRun env f n' (applyUpdateTT s u) with
                  | none => none
                  | some (fin, tr) => some (fin, n :: tr)) = some r := h
          show (match ttSuccessor n (applyUpdateTT s u) with
              | Except.error _ => none
              | Except.ok none => some (applyUpdateTT s u, [n])
              | Except.ok (some n') =>
                  match ttRun env f' n' (applyUpdateTT s u) with
                  | none => none
                  | some (fin, tr) => some (fin, n :: tr)) = some r
          cases hsucc : ttSuccessor n (applyUpdateTT s u) with
          | error e => rw [hsucc] at h2; exact absurd h2 (by simp)
          | ok target =>
              rw [hsucc] at h2
              cases target with
              | none => exact h2
              | some n' =>
                  have h3 : (match ttRun env f n' (applyUpdateTT s u) with
                      | none => none
                      | some (fin, tr) => some (fin, n :: tr)) = some r := h2
                  show (match ttRun env f' n' (applyUpdateTT s u) with
                      | none => none
                      | some (fin, tr) => some (fin, n :: tr)) = some r
                  cases hrec : ttRun env f n' (applyUpdateTT s u) with
                  | none => rw [hrec] at h3; exact absurd h3 (by simp)
                  | some r' =>
                      rw [hrec] at h3
                      rw [ih hrec (by omega)]
                      exact h3

theorem applyUpdateTT_stateAsUpdate (s : TTState) : applyUpdateTT s (stateAsUpdate s) = s := by
  cases s with
  | mk t a art p r re i b =>
      simp [applyUpdateTT, stateAsUpdate, mergeOptField_self, mergeField, lastWriteWins]

theorem ttRun_step_remove (env : TTEnv) (fuel : Nat) (s : TTState) :
    ttRun env (fuel + 1) TTNode.removeBranding s =
      match ttRun env fuel TTNode.rateImageSuitability
          (applyUpdateTT s (removeBrandingNode env s)) with
      | none => none
      | some (fin, tr) => some (fin, TTNode.removeBranding :: tr) := rfl

theorem ttRun_step_rate (env : TTEnv) (fuel : Nat) (s : TTState) :
    ttRun env (fuel + 1) TTNode.rateImageSuitability s =
      match ttRun env fuel TTNode.checkCanGenerateImage
          (applyUpdateTT s (rateImageSuitabilityNode env s)) with
      | none => none
      | some (fin, tr) => some (fin, TTNode.rateImageSuitability :: tr) := rfl

theorem ttRun_step_gip (env : TTEnv) (fuel : Nat) (s : TTState) :
    ttRun env (fuel + 1) TTNode.generateImagePrompt s =
      match ttRun env fuel TTNode.applyArtStyleToImagePrompt
          (applyUpdateTT s (generateImagePromptNode env s)) with
      | none => none
      | some (fin, tr) => some (fin, TTNode.generateImagePrompt :: tr) := rfl

theorem ttRun_step_aas (env : TTEnv) (fuel : Nat) (s : TTState) :
    ttRun env (fuel + 1) TTNode.applyArtStyleToImagePrompt s =
      match ttRun env fuel TTNode.generateImageFromPrompt
          (applyUpdateTT s (applyArtStyleToImagePromptNode env s)) with
      | none => none
      | some (fin, tr) => some (fin, TTNode.applyArtStyleToImagePrompt :: tr) := rfl

theorem ttRun_step_gifp (env : TTEnv) (fuel : Nat) (s : TTState) :
    ∃ fin, ttRun env (fuel + 1) TTNode.generateImageFromPrompt s =
        some (fin, [TTNode.generateImageFromPrompt]) := by
  cases hr : env.generateImagen3Image s.prompt (aspectRatioConfig s.aspectRatio) with
  | ok imgs =>
      have hex : ttExecNode env TTNode.generateImageFromPrompt s =
          Except.ok { images := some (imgs.map fun i => ⟨i.imageBytes, i.mimeType⟩) } := by
        show generateImageFromPrompt env s = _
        simp [generateImageFromPrompt, hr]
      have hrun : ttRun env (fuel + 1) TTNode.generateImageFromPrompt s =
          some (applyUpdateTT s
              { images := some (imgs.map fun i => ⟨i.imageBytes, i.mimeType⟩) },
            [TTNode.generateImageFromPrompt]) := by
        rw [ttRun_succ, hex]
        rfl
      exact ⟨_, hrun⟩
  | error e =>
      have hex : ttExecNode env TTNode.generateImageFromPrompt s =
          Except.ok { images := some [] } := by
        show generateImageFromPrompt env s = _
        simp [generateImageFromPrompt, hr]
      have hrun : ttRun env (fuel + 1) TTNode.generateImageFromPrompt s =
          some (applyUpdateTT s { images := some [] }, [TTNode.generateImageFromPrompt]) := by
        rw [ttRun_succ, hex]
        rfl
      exact ⟨_, hrun⟩

theorem ttRun_step_checkCan_end (env : TTEnv) (fuel : Nat) (s : TTState)
    (hnext : ttSuccessor TTNode.checkCanGenerateImage s = Except.ok none) :
    ttRun env (fuel + 1) TTNode.checkCanGenerateImage s =
      some (s, [TTNode.checkCanGenerateImage]) := by
  have hs := applyUpdateTT_stateAsUpdate s
  rw [ttRun_succ]
  show (match ttSuccessor TTNode.checkCanGenerateImage (applyUpdateTT s (stateAsUpdate s)) with
      | Except.error _ => none
      | Except.ok none =>
          some (applyUpdateTT s (stateAsUpdate s), [TTNode.checkCanGenerateImage])
      | Except.ok (some n') =>
          match ttRun env fuel n' (applyUpdateTT s (stateAsUpdate s)) with
          | none => none
          | some (fin, tr) => some (fin, TTNode.checkCanGenerateImage :: tr)) = _
  rw [hs, hnext]

theorem ttRun_step_checkCan_go (env : TTEnv) (fuel : Nat) (s : TTState) {n' : TTNode}
    (hnext : ttSuccessor TTNode.checkCanGenerateImage s = Except.ok (some n')) :
    ttRun env (fuel + 1) TTNode.checkCanGenerateImage s =
      match ttRun env fuel n' s with
      | none => none
      | some (fin, tr) => some (fin, TTNode.checkCanGenerateImage :: tr) := by
  have hs := applyUpdateTT_stateAsUpdate s
  rw [ttRun_succ]
  show (match ttSuccessor TTNode.checkCanGenerateImage (applyUpdateTT s (stateAsUpdate s)) with
      | Except.error _ => none
      | Except.ok none =>
          some (applyUpdateTT s (stateAsUpdate s), [TTNode.checkCanGenerateImage])
      | Except.ok (some n') =>
          match ttRun env fuel n' (applyUpdateTT s (stateAsUpdate s)) with
          | none => none
          | some (fin, tr) => some (fin, TTNode.checkCanGenerateImage :: tr)) = _
  rw [hs, hnext]

theorem ttRun_step_checkShould_go (env : TTEnv) (fuel : Nat) (s : TTState) {n' : TTNode}
    (hnext : ttSuccessor TTNode.checkShouldRemoveBranding s = Except.ok (some n')) :
    ttRun env (fuel + 1) TTNode.checkShouldRemoveBranding s =
      match ttRun env fuel n' s with
      | none => none
      | some (fin, tr) => some (fin, TTNode.checkShouldRemoveBranding :: tr) := by
  have hs := applyUpdateTT_stateAsUpdate s
  rw [ttRun_succ]
  show (match ttSuccessor TTNode.checkShouldRemoveBranding (applyUpdateTT s (stateAsUpdate s)) with
      | Except.error _ => none
      | Except.ok none =>
          some (applyUpdateTT s (stateAsUpdate s), [TTNode.checkShouldRemoveBranding])
      | Except.ok (some n') =>
          match ttRun env fuel n' (applyUpdateTT s (stateAsUpdate s)) with
          | none => none
          | some (fin, tr) => some (fin, TTNode.checkShouldRemoveBranding :: tr)) = _
  rw [hs, hnext]

theorem ttRun_from_checkCan (env : TTEnv) (s : TTState) :
    ∃ fin tr, ttRun env 4 TTNode.checkCanGenerateImage s =
        some (fin, TTNode.checkCanGenerateImage :: tr) ∧
      ((canGenerateImage s = "NO" ∧ tr = []) ∨
       (canGenerateImage s = "YES" ∧
        tr = [TTNode.generateImagePrompt, TTNode.applyArtStyleToImagePrompt,
              TTNode.generateImageFromPrompt])) := by
  by_cases hY : (truthyNum s.rating && ratingAboveFive s.rating) = true
  · have hcs : canGenerateImage s = "YES" := by simp [canGenerateImage, hY]
    have hsucc : ttSuccessor TTNode.checkCanGenerateImage s =
        Except.ok (some TTNode.generateImagePrompt) := by
      show labelLookup ttCanGenerateImageLabelMap (canGenerateImage s) = _
      rw [hcs]
      rfl
    rw [show (4 : Nat) = 3 + 1 from rfl, ttRun_step_checkCan_go env 3 s hsucc]
    rw [show (3 : Nat) = 2 + 1 from rfl, ttRun_step_gip]
    rw [show (2 : Nat) = 1 + 1 from rfl, ttRun_step_aas]
    obtain ⟨fin, hg⟩ := ttRun_step_gifp env 0
      (applyUpdateTT (applyUpdateTT s (generateImagePromptNode env s))
        (applyArtStyleToImagePromptNode env (applyUpdateTT s (generateImagePromptNode env s))))
    rw [show (1 : Nat) = 0 + 1 from rfl, hg]
    exact ⟨fin, _, rfl, Or.inr ⟨hcs, rfl⟩⟩
  · have hcs : canGenerateImage s = "NO" := by simp [canGenerateImage, hY]
    have hsucc : ttSuccessor TTNode.checkCanGenerateImage s = Except.ok none := by
      show labelLookup ttCanGenerateImageLabelMap (canGenerateImage s) = _
      rw [hcs]
      rfl
    rw [show (4 : Nat) = 3 + 1 from rfl, ttRun_step_checkCan_end env 3 s hsucc]
    exact ⟨s, [], rfl, Or.inl ⟨hcs, rfl⟩⟩

theorem canGenerateImage_of_rating {s : TTState} {r : Int} (hr : s.rating = some r) :
    canGenerateImage s = if 5 < r then "YES" else "NO" := by
  unfold canGenerateImage
  rw [hr]
  by_cases h5 : 5 < r
  · have hnz : r ≠ 0 := by omega
    simp [truthyNum, ratingAboveFive, h5, hnz]
  · simp [truthyNum, ratingAboveFive, h5]

theorem ttRun_from_rate (env : TTEnv) (s : TTState) :
    ∃ fin tr, ttRun env 5 TTNode.rateImageSuitability s =
        some (fin, TTNode.rateImageSuitability :: TTNode.checkCanGenerateImage :: tr) ∧
      ((5 < (env.rateImageLLM s.tweet).1 ∧
        tr = [TTNode.generateImagePrompt, TTNode.applyArtStyleToImagePrompt,
              TTNode.generateImageFromPrompt]) ∨
       (¬ 5 < (env.rateImageLLM s.tweet).1 ∧ tr = [])) := by
  rw [show (5 : Nat) = 4 + 1 from rfl, ttRun_step_rate]
  have hr1 : (applyUpdateTT s (rateImageSuitabilityNode env s)).rating =
      some (env.rateImageLLM s.tweet).1 := rfl
  obtain ⟨fin, tr, hrun, hdisj⟩ :=
    ttRun_from_checkCan env (applyUpdateTT s (rateImageSuitabilityNode env s))
  rw [hrun]
  have hiff := canGenerateImage_of_rating hr1
  refine ⟨fin, tr, rfl, ?_⟩
  by_cases h5 : 5 < (env.rateImageLLM s.tweet).1
  · rw [if_pos h5] at hiff
    rcases hdisj with ⟨hNo, _⟩ | ⟨_, htr⟩
    · rw [hiff] at hNo; exact absurd hNo (by decide)
    · exact Or.inl ⟨h5, htr⟩
  · rw [if_neg h5] at hiff
    rcases hdisj with ⟨_, htr⟩ | ⟨hYes, _⟩
    · exact Or.inr ⟨h5, htr⟩
    · rw [hiff] at hYes; exact absurd hYes (by decide)

theorem ttRun_start_noBranding (env : TTEnv) (s : TTState)
    (hb : s.shouldRemoveBranding = false) :
    ∃ fin tr, ttRun env 7 TTNode.checkShouldRemoveBranding s =
        some (fin, TTNode.checkShouldRemoveBranding :: TTNode.rateImageSuitability ::
          TTNode.checkCanGenerateImage :: tr) ∧
      ((5 < (env.rateImageLLM s.tweet).1 ∧
        tr = [TTNode.generateImagePrompt, TTNode.applyArtStyleToImagePrompt,
              TTNode.generateImageFromPrompt]) ∨
       (¬ 5 < (env.rateImageLLM s.tweet).1 ∧ tr = [])) := by
  have hsr : shouldRemoveBranding s = "NO" := by simp [shouldRemoveBranding, hb]
  have hsucc : ttSuccessor TTNode.checkShouldRemoveBranding s =
      Except.ok (some TTNode.rateImageSuitability) := by
    show labelLookup ttShouldRemoveBrandingLabelMap (shouldRemoveBranding s) = _
    rw [hsr]
    rfl
  obtain ⟨fin, tr, hrun, hdisj⟩ := ttRun_from_rate env s
  have hrun6 := ttRun_mono env hrun (by omega : (5 : Nat) ≤ 6)
  rw [show (7 : Nat) = 6 + 1 from rfl, ttRun_step_checkShould_go env 6 s hsucc, hrun6]
  exact ⟨fin, tr, rfl, hdisj⟩

theorem ttRun_start_branding (env : TTEnv) (s : TTState)
    (hb : s.shouldRemoveBranding = true) :
    ∃ fin tr, ttRun env 7 TTNode.checkShouldRemoveBranding s =
        some (fin, TTNode.checkShouldRemoveBranding :: TTNode.removeBranding ::
          TTNode.rateImageSuitability :: TTNode.checkCanGenerateImage :: tr) ∧
      ((5 < (env.rateImageLLM (some (env.removeBrandingLLM s.tweet))).1 ∧
        tr = [TTNode.generateImagePrompt, TTNode.applyArtStyleToImagePrompt,
              TTNode.generateImageFromPrompt]) ∨
       (¬ 5 < (env.rateImageLLM (some (env.removeBrandingLLM s.tweet))).1 ∧ tr = [])) := by
  have hsr : shouldRemoveBranding s = "YES" := by simp [shouldRemoveBranding, hb]
  have hsucc : ttSuccessor TTNode.checkShouldRemoveBranding s =
      Except.ok (some TTNode.removeBranding) := by
    show labelLookup ttShouldRemoveBrandingLabelMap (shouldRemoveBranding s) = _
    rw [hsr]
    rfl
  obtain ⟨fin, tr, hrun, hdisj⟩ :=
    ttRun_from_rate env (applyUpdateTT s (removeBrandingNode env s))
  rw [show (7 : Nat) = 6 + 1 from rfl, ttRun_step_checkShould_go env 6 s hsucc]
  rw [show (6 : Nat) = 5 + 1 from rfl, ttRun_step_remove, hrun]
  exact ⟨fin, tr, rfl, hdisj⟩

/-- C8: the shouldRemoveBranding field defaults to true, and the
entry-side router decides the branding branch: a run whose input sets the
flag to false routes NO, goes from checkShouldRemoveBranding straight to
rateImageSuitability and never visits removeBranding; with the flag true
the router routes YES and removeBranding is visited right after the
check. -/
theorem tweetToImage_branding_branch :
    ttInitialState.shouldRemoveBranding = true ∧
    (∀ (env : TTEnv) (s₀ : TTState) (fuel : Nat),
      s₀.shouldRemoveBranding = false → 7 ≤ fuel →
      shouldRemoveBranding s₀ = "NO" ∧
      ∃ fin tr, ttRun env fuel TTNode.checkShouldRemoveBranding s₀ = some (fin, tr) ∧
        TTNode.removeBranding ∉ tr ∧
        tr.take 2 = [TTNode.checkShouldRemoveBranding, TTNode.rateImageSuitability]) ∧
    (∀ (env : TTEnv) (s₀ : TTState) (fuel : Nat),
      s₀.shouldRemoveBranding = true → 7 ≤ fuel →
      shouldRemoveBranding s₀ = "YES" ∧
      ∃ fin tr, ttRun env fuel TTNode.checkShouldRemoveBranding s₀ = some (fin, tr) ∧
        TTNode.removeBranding ∈ tr ∧
        tr.take 2 = [TTNode.checkShouldRemoveBranding, TTNode.removeBranding]) := by
  refine ⟨rfl, ?_, ?_⟩
  · intro env s₀ fuel hb hfuel
    refine ⟨by simp [shouldRemoveBranding, hb], ?_⟩
    obtain ⟨fin, tr, hrun, hdisj⟩ := ttRun_start_noBranding env s₀ hb
    refine ⟨fin, _, ttRun_mono env hrun hfuel, ?_, ?_⟩
    · rcases hdisj with ⟨_, htr⟩ | ⟨_, htr⟩ <;> subst htr <;> decide
    · rfl
  · intro env s₀ fuel hb hfuel
    refine ⟨by simp [shouldRemoveBranding, hb], ?_⟩
    obtain ⟨fin, tr, hrun, hdisj⟩ := ttRun_start_branding env s₀ hb
    refine ⟨fin, _, ttRun_mono env hrun hfuel, ?_, ?_⟩
    · simp
    · rfl

/-- C9: the canGenerateImage router answers YES exactly when the rating
field is set, truthy and strictly greater than 5; when the rating produced
for the tweet is at most 5 the router answers NO and the run ends at the
terminal right after checkCanGenerateImage, never visiting
generateImagePrompt, applyArtStyleToImagePrompt or generateImageFromPrompt
— an image is generated only for suitability ratings of 6 or more. -/
theorem canGenerateImage_gates_image_nodes :
    (∀ s : TTState, canGenerateImage s = "YES" ↔
      ∃ n, s.rating = some n ∧ n ≠ 0 ∧ 5 < n) ∧
    (∀ (env : TTEnv) (s₀ : TTState) (fuel : Nat),
      (∀ t, (env.rateImageLLM t).1 ≤ 5) → 7 ≤ fuel →
      ∃ fin tr, ttRun env fuel TTNode.checkShouldRemoveBranding s₀ = some (fin, tr) ∧
        TTNode.generateImagePrompt ∉ tr ∧
        TTNode.applyArtStyleToImagePrompt ∉ tr ∧
        TTNode.generateImageFromPrompt ∉ tr ∧
        tr.getLast? = some TTNode.checkCanGenerateImage) := by
  constructor
  · intro s
    constructor
    · intro h
      by_cases hc : (truthyNum s.rating && ratingAboveFive s.rating) = true
      · cases hr : s.rating with
        | none => rw [hr] at hc; simp [truthyNum] at hc
        | some n =>
            rw [hr] at hc
            simp only [Bool.and_eq_true, truthyNum, ratingAboveFive, decide_eq_true_eq] at hc
            exact ⟨n, rfl, hc.1, hc.2⟩
      · unfold canGenerateImage at h
        rw [if_neg hc] at h
        exact absurd h (by decide)
    · rintro ⟨n, hn, hnz, h5⟩
      unfold canGenerateImage
      rw [hn]
      simp [truthyNum, ratingAboveFive, hnz, h5]
  · intro env s₀ fuel hrate hfuel
    cases hb : s₀.shouldRemoveBranding with
    | false =>
        obtain ⟨fin, tr, hrun, hdisj⟩ := ttRun_start_noBranding env s₀ hb
        rcases hdisj with ⟨h5, _⟩ | ⟨_, htr⟩
        · exact absurd h5 (by have := hrate s₀.tweet; omega)
        · subst htr
          exact ⟨fin, _, ttRun_mono env hrun hfuel, by decide, by decide, by decide, by decide⟩
    | true =>
        obtain ⟨fin, tr, hrun, hdisj⟩ := ttRun_start_branding env s₀ hb
        rcases hdisj with ⟨h5, _⟩ | ⟨_, htr⟩
        · exact absurd h5
            (by have := hrate (some (env.removeBrandingLLM s₀.tweet)); omega)
        · subst htr
          exact ⟨fin, _, ttRun_mono env hrun hfuel, by decide, by decide, by decide, by decide⟩

/-! ## Shape of normalizeToSnakeCase output (claim C10) -/

theorem char_toNat_ofNat {n : Nat} (h : n.isValidChar) : (Char.ofNat n).toNat = n := by
  rw [Char.ofNat, dif_pos h]
  rfl

theorem toLower_isUpper_false (c : Char) : (Char.toLower c).isUpper = false := by
  unfold Char.toLower
  by_cases h : c.toNat ≥ 65 ∧ c.toNat ≤ 90
  · rw [if_pos h]
    have hv : (c.toNat + 32).isValidChar := Or.inl (by omega)
    have ht : (Char.ofNat (c.toNat + 32)).toNat = c.toNat + 32 := char_toNat_ofNat hv
    have hgt : ¬ ((Char.ofNat (c.toNat + 32)).val ≤ 90) := by
      intro hle
      have h90 : (Char.ofNat (c.toNat + 32)).val.toNat ≤ 90 :=
        UInt32.toNat_le_of_le (by decide) hle
      have : (Char.ofNat (c.toNat + 32)).val.toNat = c.toNat + 32 := ht
      omega
    simp [Char.isUpper, hgt]
  · rw [if_neg h]
    have hno : ¬ (65 ≤ c.val ∧ c.val ≤ 90) := by
      rintro ⟨h1, h2⟩
      have g1 : 65 ≤ c.val.toNat := UInt32.le_toNat_of_le (by decide) h1
      have g2 : c.val.toNat ≤ 90 := UInt32.toNat_le_of_le (by decide) h2
      exact h ⟨g1, g2⟩
    by_cases h1 : (65 : UInt32) ≤ c.val
    · have h2 : ¬ c.val ≤ 90 := fun h2 => hno ⟨h1, h2⟩
      simp [Char.isUpper, h2]
    · simp [Char.isUpper, h1]

theorem isLowerSnake_of_alnum_lower {c : Char} (halnum : isAsciiAlnum c = true)
    (hup : c.isUpper = false) : isLowerSnakeChar c = true := by
  unfold isAsciiAlnum Char.isAlpha at halnum
  rw [hup] at halnum
  simp only [Bool.false_or, Bool.or_eq_true] at halnum
  unfold isLowerSnakeChar
  rcases halnum with h | h <;> simp [h]

theorem collapseRuns_mem (p : Char → Bool) (r : Char) :
    ∀ (l : List Char) (c : Char), c ∈ collapseRuns p r l → c = r ∨ (c ∈ l ∧ p c = false) := by
  intro l
  induction l with
  | nil => intro c h; simp [collapseRuns] at h
  | cons a tl ih =>
      intro c h
      cases tl with
      | nil =>
          by_cases hp : p a
          · left; simpa [collapseRuns, hp] using h
          · right
            have hc : c = a := by simpa [collapseRuns, hp] using h
            subst hc
            exact ⟨List.mem_cons_self c [], by simpa using hp⟩
      | cons d rest =>
          by_cases hpa : p a
          · by_cases hpd : p d
            · simp only [collapseRuns, hpa, hpd, if_true] at h
              rcases ih c h with h1 | ⟨h2, h3⟩
              · exact Or.inl h1
              · exact Or.inr ⟨List.mem_cons_of_mem a h2, h3⟩
            · simp only [collapseRuns, hpa, hpd, if_true, if_false] at h
              rcases List.mem_cons.mp h with h1 | h1
              · exact Or.inl h1
              · rcases ih c h1 with h2 | ⟨h3, h4⟩
                · exact Or.inl h2
                · exact Or.inr ⟨List.mem_cons_of_mem a h3, h4⟩
          · simp only [collapseRuns, hpa, if_false] at h
            rcases List.mem_cons.mp h with h1 | h1
            · subst h1
              exact Or.inr ⟨List.mem_cons_self c _, by simpa using hpa⟩
            · rcases ih c h1 with h2 | ⟨h3, h4⟩
              · exact Or.inl h2
              · exact Or.inr ⟨List.mem_cons_of_mem a h3, h4⟩

theorem collapseRuns_cons_neg (p : Char → Bool) (r : Char) {d : Char} (rest : List Char)
    (hd : p d = false) : collapseRuns p r (d :: rest) = d :: collapseRuns p r rest := by
  cases rest with
  | nil => simp [collapseRuns, hd]
  | cons e rest' => simp [collapseRuns, hd]

theorem collapseRuns_head_pos (p : Char → Bool) (r : Char) :
    ∀ (rest : List Char) (d : Char), p d = true →
      ∃ t, collapseRuns p r (d :: rest) = r :: t := by
  intro rest
  induction rest with
  | nil => intro d hd; exact ⟨[], by simp [collapseRuns, hd]⟩
  | cons e rest ih =>
      intro d hd
      by_cases hpe : p e
      · obtain ⟨t, ht⟩ := ih e hpe
        refine ⟨t, ?_⟩
        simp only [collapseRuns, hd, hpe, if_true]
        exact ht
      · refine ⟨collapseRuns p r (e :: rest), ?_⟩
        simp [collapseRuns, hd, hpe]

theorem collapseRuns_chain' (p : Char → Bool) (r : Char) :
    ∀ l : List Char,
      List.Chain' (fun a b => p a = false ∨ p b = false) (collapseRuns p r l) := by
  intro l
  induction l with
  | nil => simp [collapseRuns]
  | cons a tl ih =>
      cases tl with
      | nil => by_cases hp : p a <;> simp [collapseRuns, hp]
      | cons d rest =>
          by_cases hpa : p a
          · by_cases hpd : p d
            · simpa only [collapseRuns, hpa, hpd, if_true] using ih
            · have hpd' : p d = false := by simpa using hpd
              have hcn := collapseRuns_cons_neg p r rest hpd'
              simp only [collapseRuns, hpa, hpd, if_true, if_false]
              rw [hcn] at ih ⊢
              exact List.chain'_cons.mpr ⟨Or.inr hpd', ih⟩
          · have hpa' : p a = false := by simpa using hpa
            by_cases hpd : p d
            · obtain ⟨t, ht⟩ := collapseRuns_head_pos p r rest d hpd
              simp only [collapseRuns, hpa, if_false]
              rw [ht] at ih ⊢
              exact List.chain'_cons.mpr ⟨Or.inl hpa', ih⟩
            · have hpd' : p d = false := by simpa using hpd
              have hcn := collapseRuns_cons_neg p r rest hpd'
              simp only [collapseRuns, hpa, if_false]
              rw [hcn] at ih ⊢
              exact List.chain'_cons.mpr ⟨Or.inl hpa', ih⟩

theorem dropLeadUnderscore_subset (l : List Char) : ∀ c ∈ dropLeadUnderscore l, c ∈ l := by
  intro c hc
  unfold dropLeadUnderscore at hc
  split at hc
  · cases l with
    | nil => simp at hc
    | cons a t => exact List.mem_cons_of_mem a hc
  · exact hc

theorem dropTrailUnderscore_subset (l : List Char) : ∀ c ∈ dropTrailUnderscore l, c ∈ l := by
  intro c hc
  unfold dropTrailUnderscore at hc
  split at hc
  · have hp := List.dropLast_prefix l
    exact hp.sublist.subset hc
  · exact hc

theorem chain'_dropLead {R : Char → Char → Prop} {l : List Char} (h : List.Chain' R l) :
    List.Chain' R (dropLeadUnderscore l) := by
  unfold dropLeadUnderscore
  split
  · exact h.tail
  · exact h

theorem chain'_dropTrail {R : Char → Char → Prop} {l : List Char} (h : List.Chain' R l) :
    List.Chain' R (dropTrailUnderscore l) := by
  unfold dropTrailUnderscore
  split
  · have hp := List.dropLast_prefix l
    exact List.Chain'.prefix h hp
  · exact h

theorem head?_dropLast_some {l : List Char} {c : Char} (h : l.dropLast.head? = some c) :
    l.head? = some c := by
  cases l with
  | nil => simp at h
  | cons a t =>
      cases t with
      | nil => simp at h
      | cons b t' =>
          rw [List.dropLast_cons₂] at h
          simp only [List.head?_cons, Option.some.injEq] at h ⊢
          exact h

theorem head?_take_some {l : List Char} {n : Nat} {c : Char} (h : (l.take n).head? = some c) :
    l.head? = some c := by
  cases l with
  | nil => simp at h
  | cons a t =>
      cases n with
      | zero => simp at h
      | succ m => simpa using h

theorem dropLead_head {l : List Char}
    (hch : List.Chain' (fun a b => ¬(a = '_' ∧ b = '_')) l) :
    ∀ c, (dropLeadUnderscore l).head? = some c → c ≠ '_' := by
  intro c hc
  unfold dropLeadUnderscore at hc
  split at hc
  case isTrue hhead =>
    cases l with
    | nil => simp at hc
    | cons a t =>
        have ha : a = '_' := by simpa using hhead
        cases t with
        | nil => simp at hc
        | cons b t' =>
            have hb : b = c := by simpa using hc
            have hR := (List.chain'_cons.mp hch).1
            subst ha hb
            intro hc'
            exact hR ⟨rfl, hc'⟩
  case isFalse hhead =>
    intro hc'
    subst hc'
    exact hhead hc

theorem dropTrail_head {l : List Char} (hh : ∀ c, l.head? = some c → c ≠ '_') :
    ∀ c, (dropTrailUnderscore l).head? = some c → c ≠ '_' := by
  intro c hc
  unfold dropTrailUnderscore at hc
  split at hc
  · exact hh c (head?_dropLast_some hc)
  · exact hh c hc

/-- C10: for every input, normalizeToSnakeCase yields at most 64
characters, all of them lower-case ASCII letters, digits or underscores,
with no two consecutive underscores and no leading underscore. -/
theorem normalizeToSnakeCase_shape (input : List Char) :
    (normalizeToSnakeCase input).length ≤ 64 ∧
    (∀ c ∈ normalizeToSnakeCase input, isLowerSnakeChar c = true) ∧
    List.Chain' (fun a b => ¬(a = '_' ∧ b = '_')) (normalizeToSnakeCase input) ∧
    (∀ c, (normalizeToSnakeCase input).head? = some c → c ≠ '_') := by
  have hdef : normalizeToSnakeCase input =
      (if (dropEdgeUnderscores
            (collapseRuns (fun c => c == '_') '_'
              (collapseRuns (fun c => !isAsciiAlnum c) '_'
                (input.map Char.toLower)))).length > 64 then
        (dropEdgeUnderscores
            (collapseRuns (fun c => c == '_') '_'
              (collapseRuns (fun c => !isAsciiAlnum c) '_'
                (input.map Char.toLower)))).take 64
      else
        dropEdgeUnderscores
          (collapseRuns (fun c => c == '_') '_'
            (collapseRuns (fun c => !isAsciiAlnum c) '_'
              (input.map Char.toLower)))) := rfl
  set l0 := input.map Char.toLower with hl0
  set lB := collapseRuns (fun c => !isAsciiAlnum c) '_' l0 with hlB
  set l2 := collapseRuns (fun c => c == '_') '_' lB with hl2
  set l3 := dropEdgeUnderscores l2 with hl3
  -- every character of l3 is a lower-snake character
  have hmem3 : ∀ c ∈ l3, isLowerSnakeChar c = true := by
    intro c hc
    have hc2 : c ∈ l2 := dropTrailUnderscore_subset _ c
      (by exact hc) |> dropLeadUnderscore_subset l2 c
    rcases collapseRuns_mem _ '_' lB c hc2 with h | ⟨hcB, _⟩
    · subst h; rfl
    · rcases collapseRuns_mem _ '_' l0 c hcB with h | ⟨hc0, hp⟩
      · subst h; rfl
      · have halnum : isAsciiAlnum c = true := by
          rw [Bool.not_eq_false'] at hp
          exact hp
        obtain ⟨x, _, hx⟩ := List.mem_map.mp hc0
        have hup : c.isUpper = false := by rw [← hx]; exact toLower_isUpper_false x
        exact isLowerSnake_of_alnum_lower halnum hup
  -- no two consecutive underscores in l3
  have hch2 : List.Chain' (fun a b => ¬(a = '_' ∧ b = '_')) l2 := by
    have h := collapseRuns_chain' (fun c => c == '_') '_' lB
    refine List.Chain'.imp ?_ h
    intro a b hab ⟨ha, hb⟩
    rcases hab with h1 | h1
    · rw [ha] at h1; simp at h1
    · rw [hb] at h1; simp at h1
  have hch3 : List.Chain' (fun a b => ¬(a = '_' ∧ b = '_')) l3 :=
    chain'_dropTrail (chain'_dropLead hch2)
  -- no leading underscore in l3
  have hhd3 : ∀ c, l3.head? = some c → c ≠ '_' :=
    dropTrail_head (dropLead_head hch2)
  refine ⟨?_, ?_, ?_, ?_⟩
  · rw [hdef]
    split
    · simp [List.length_take]
    · omega
  · intro c hc
    rw [hdef] at hc
    split at hc
    · exact hmem3 c (List.mem_of_mem_take hc)
    · exact hmem3 c hc
  · rw [hdef]
    split
    · exact List.Chain'.take hch3 64
    · exact hch3
  · intro c hc
    rw [hdef] at hc
    split at hc
    · exact hhd3 c (head?_take_some hc)
    · exact hhd3 c hc

/-- A sample evaluation of normalizeToSnakeCase, checking the model against
the JavaScript behaviour on a concrete string. -/
theorem normalizeToSnakeCase_sample :
    normalizeToSnakeCase "GET /User-Data!!".data = "get_user_data".data := by decide
